import Mathlib

/-!
# metricas: the batching loop of `timeseries`

A shallow embedding of `timeseries/timeseries.go`.  The goroutine `run` owns the
buffer `pointsBuf`; the three arms of its `select` become the constructors of
`Event`, and one pass through the loop body becomes `step`.  The InfluxDB client
is the only collaborator: every batch handed to `db.Write` is recorded, in call
order, in `Exec.written`, and what the client answers is a field of `Client`, so
that a theorem can quantify over all sinks.  A run-time panic of the goroutine
is a value of `Status`: a panicked goroutine processes no further event.  `run`
panics in two places: in `time.NewTicker`, when the interval does not make a
positive duration, and in `flush`, when a write fails without a response.

The conversion `transformFields` of `service/service.go` is embedded as a fold
over the entries of a Go map.
-/

namespace Metricas

/-! ## Data model -/

/-- The `influxdb.Point` built by the service from one metric: measurement name,
tags, timestamp and integer fields.  The batcher never inspects a point. -/
structure Point where
  Measurement : String
  Tags : List (String × String)
  Time : Int
  Fields : List (String × Int)
  deriving DecidableEq, Repr

/-- The `influxdb.BatchPoints` literal of `flush`: only these three fields are
set there. -/
structure BatchPoints where
  Points : List Point
  Database : String
  RetentionPolicy : String
  deriving DecidableEq, Repr

/-- The `influxdb.Response` behind the pointer returned by `Write`; it carries
the error text of the server, if any. -/
structure Response where
  Err : Option String
  deriving DecidableEq, Repr

/-- The pair `(r, err)` returned by `ts.db.Write(batch)`: `r` is a pointer
(`none` is the nil pointer) and `err` an error value (`none` is nil).  The
client answers a transport failure with a nil response and a non-nil error, and
a rejected request with a response together with the error. -/
structure WriteResult where
  r : Option Response
  err : Option String
  deriving DecidableEq, Repr

/-- The InfluxDB client as `flush` sees it.  `Write` is given the batches that
were written before and the batch being written, so a sink may answer every
call differently. -/
structure Client where
  Write : List BatchPoints → BatchPoints → WriteResult

/-- The struct `timeseries.Configuration`, filled from the command line. -/
structure Configuration where
  AddrInfluxDb : String
  DbUser : String
  DbPwd : String
  DbName : String
  deriving DecidableEq, Repr

/-- The struct `timeseries`; its two channels are replaced by `Event`. -/
structure timeseries where
  config : Configuration
  db : Client
  pointsBuf : List Point

/-- Where the goroutine running `run` stands: inside the loop, returned (the
stop arm was taken), or dead after a run-time panic. -/
inductive Status where
  | running
  | returned
  | panicked
  deriving DecidableEq, Repr

/-- The goroutine together with what the sink has observed of it. -/
structure Exec where
  ts : timeseries
  written : List BatchPoints
  status : Status

/-- What one `select` of `run` can receive: the stop channel fires, a point
arrives on `pointsChan`, or the ticker fires.  The service only ever sends
pointers to freshly built points, so `accept` carries the point itself. -/
inductive Event where
  | stop
  | accept (point : Point)
  | tick
  deriving DecidableEq, Repr

/-! ## Constants -/

/-- Flush every 5 seconds. -/
def FLUSH_INTERVAL_MS : Int := 5000

/-- Or flush when 1024 points are buffered. -/
def FLUSH_MAX_POINTS : Int := 1024

/-! ## Operations -/

/-- The call `r.Error()` of `flush`, where `r` is the pointer returned by
`Write`.  The method of the client library reads the fields of its receiver, so
through a nil pointer it is a nil pointer dereference, a run-time panic,
rendered here as `none`; otherwise it yields the error carried by the
response. -/
def Response.Error (r : Option Response) : Option (Option String) :=
  match r with
  | none => none
  | some resp => some resp.Err

/-- The batch literal built in the first statement of `flush`. -/
def batchOf (ts : timeseries) : BatchPoints :=
  { Points := ts.pointsBuf, Database := ts.config.DbName, RetentionPolicy := "default" }

/-- The method `flush`: build the batch from the buffer, hand it to `db.Write`,
on an error print `err.Error()` and `r.Error()`, then set the buffer to nil.
When evaluating the arguments of the print panics, the statement that resets
the buffer is never reached. -/
def flush (x : Exec) : Exec :=
  let batch := batchOf x.ts
  let res := x.ts.db.Write x.written batch
  let x1 : Exec := { x with written := x.written ++ [batch] }
  match res.err with
  | some _ =>
    match Response.Error res.r with
    | none => { x1 with status := Status.panicked }
    | some _ => { x1 with ts := { x1.ts with pointsBuf := [] } }
  | none => { x1 with ts := { x1.ts with pointsBuf := [] } }

/-- The statement `ts.pointsBuf = append(ts.pointsBuf, *point)` of the accept
arm. -/
def appendPoint (x : Exec) (point : Point) : Exec :=
  { x with ts := { x.ts with pointsBuf := x.ts.pointsBuf ++ [point] } }

/-- The `return` of the stop arm, reached only when `flush` came back. -/
def leaveLoop (x : Exec) : Exec :=
  match x.status with
  | Status.panicked => x
  | _ => { x with status := Status.returned }

/-- One iteration of the `for`/`select` of `run` on the event that was
received.  Once the goroutine has returned or panicked nothing is received any
more. -/
def step (flushMaxPoints : Int) (x : Exec) (e : Event) : Exec :=
  match x.status with
  | Status.running =>
    match e with
    | Event.stop => leaveLoop (flush x)
    | Event.accept point =>
      let y := appendPoint x point
      if (y.ts.pointsBuf.length : Int) = flushMaxPoints then flush y else y
    | Event.tick =>
      if 0 < x.ts.pointsBuf.length then flush x else x
  | _ => x

/-- The value of an `int64` computation whose exact result is `n`: Go wraps
around silently. -/
def int64 (n : Int) : Int :=
  (n + 9223372036854775808) % 18446744073709551616 - 9223372036854775808

/-- The argument of `time.NewTicker` in `run`:
`time.Duration(flushInterval) * time.Millisecond`, a number of nanoseconds in
`int64`. -/
def tickerDuration (flushInterval : Int) : Int :=
  int64 (flushInterval * 1000000)

/-- The `for` loop of `run`, driven by the events in the order in which the
`select` received them. -/
def loop (flushMaxPoints : Int) (x : Exec) (events : List Event) : Exec :=
  events.foldl (step flushMaxPoints) x

/-- The method `run`: create the ticker, then loop.  `time.NewTicker` panics on
a duration that is not positive, before anything is received; otherwise the
interval only sets the pace of the ticker, whose firings are the `tick`
events. -/
def run (flushInterval : Int) (flushMaxPoints : Int) (x : Exec) (events : List Event) : Exec :=
  if 0 < tickerDuration flushInterval then loop flushMaxPoints x events
  else { x with status := Status.panicked }

/-- The constructor `NewTimeSeries` on its successful path (the address parses, the client
connects and answers the ping): an empty buffer, nothing written yet, and the
goroutine about to enter `run`. -/
def NewTimeSeries (config : Configuration) (client : Client) : Exec :=
  { ts := { config := config, db := client, pointsBuf := [] }
    written := []
    status := Status.running }

/-! ## Vocabulary of the statements -/

/-- The points of the `accept` events of a sequence, in arrival order. -/
def acceptedPoints (events : List Event) : List Point :=
  events.filterMap fun e =>
    match e with
    | Event.accept point => some point
    | _ => none

/-- A write result on which `flush` comes back: anything but an error paired
with a nil response. -/
def WriteResult.survivable (w : WriteResult) : Bool :=
  w.err.isNone || w.r.isSome

/-- The bound kept by the loop: the buffer holds at most `max` points, and fewer
than `max` whenever the goroutine has not panicked. -/
def Bounded (max : Int) (x : Exec) : Prop :=
  (x.ts.pointsBuf.length : Int) ≤ max ∧
    (x.status ≠ Status.panicked → (x.ts.pointsBuf.length : Int) < max)

instance (max : Int) (x : Exec) : Decidable (Bounded max x) := by
  unfold Bounded
  infer_instance

/-- The points received and not yet handed to the sink.  A panic of `flush`
happens after the call of `Write`, so a panicked goroutine has handed over all
it had. -/
def pending (x : Exec) : List Point :=
  match x.status with
  | Status.panicked => []
  | _ => x.ts.pointsBuf

/-- All points handed to the sink so far, batch after batch. -/
def writtenPoints (x : Exec) : List Point :=
  (x.written.map BatchPoints.Points).flatten

/-- A sink that accepts every batch: `Write` returns `nil, nil`. -/
def okClient : Client :=
  { Write := fun _ _ => { r := none, err := none } }

/-- A sink that cannot be reached: `Write` returns a nil response and the
transport error. -/
def downClient : Client :=
  { Write := fun _ _ => { r := none, err := some "connection refused" } }

/-- A sink that rejects every batch: `Write` returns the response of the server
together with the error. -/
def rejectingClient : Client :=
  { Write := fun _ _ => { r := some { Err := some "bad request" }, err := some "bad request" } }

/-- A sample configuration: the defaults of the command line. -/
def sampleConfig : Configuration :=
  { AddrInfluxDb := "localhost:8086", DbUser := "", DbPwd := "", DbName := "metrics" }

/-- A sample point. -/
def samplePoint (n : Int) : Point :=
  { Measurement := "cpu", Tags := [], Time := n, Fields := [("value", n)] }

/-! ## The conversion of metric values in the service -/

/-- A Go `map[string]V`: finitely many entries whose keys are pairwise
distinct.  The order of the entries stands for the order in which a `range`
over the map happens to visit them. -/
abbrev GoMap (V : Type) := AList (fun _ : String => V)

/-- A value of type `interface{}` as `transformFields` stores it: the dynamic
type is always `int64`. -/
inductive Iface where
  | int64 (v : Int)
  deriving DecidableEq, Repr

/-- The two maps alive in `transformFields`: the argument and the map under
construction. -/
structure FieldsFrame where
  values : GoMap Int
  fields : GoMap Iface

/-- The body of the `range` loop: `fields[k] = v`. -/
def transformFieldsBody (fr : FieldsFrame) (k : String) (v : Int) : FieldsFrame :=
  { fr with fields := fr.fields.insert k (Iface.int64 v) }

/-- The `range` loop of `transformFields`, started on the freshly made map (the
length given to `make` is only a capacity). -/
def transformFieldsLoop (values : GoMap Int) : FieldsFrame :=
  values.entries.foldl (fun fr e => transformFieldsBody fr e.1 e.2)
    { values := values, fields := ∅ }

/-- The function `transformFields` of the service: the map it returns. -/
def transformFields (values : GoMap Int) : GoMap Iface :=
  (transformFieldsLoop values).fields

/-- Sample metric values. -/
def sampleValues : GoMap Int :=
  (AList.insert "used" 7 (AList.insert "free" (-3) ∅))

/-! ## Facts about `flush` -/

theorem flush_written (x : Exec) : (flush x).written = x.written ++ [batchOf x.ts] := by
  unfold flush
  dsimp only
  split
  · split <;> rfl
  · rfl

theorem flush_config (x : Exec) : (flush x).ts.config = x.ts.config := by
  unfold flush
  dsimp only
  split
  · split <;> rfl
  · rfl

theorem flush_db (x : Exec) : (flush x).ts.db = x.ts.db := by
  unfold flush
  dsimp only
  split
  · split <;> rfl
  · rfl

/-- When the write result is survivable, `flush` records the batch, empties the
buffer and changes nothing else. -/
theorem flush_of_survivable (x : Exec)
    (hw : (x.ts.db.Write x.written (batchOf x.ts)).survivable = true) :
    flush x = { x with written := x.written ++ [batchOf x.ts]
                       ts := { x.ts with pointsBuf := [] } } := by
  unfold WriteResult.survivable at hw
  unfold flush
  dsimp only
  cases herr : (x.ts.db.Write x.written (batchOf x.ts)).err with
  | none => rfl
  | some e =>
    cases hr : (x.ts.db.Write x.written (batchOf x.ts)).r with
    | none => simp [herr, hr] at hw
    | some resp => simp [Response.Error]

/-- When the write fails with a nil response, `flush` records the batch and
panics with the buffer untouched. -/
theorem flush_of_not_survivable (x : Exec)
    (hw : (x.ts.db.Write x.written (batchOf x.ts)).survivable = false) :
    flush x = { x with written := x.written ++ [batchOf x.ts]
                       status := Status.panicked } := by
  unfold WriteResult.survivable at hw
  unfold flush
  dsimp only
  cases herr : (x.ts.db.Write x.written (batchOf x.ts)).err with
  | none => simp [herr] at hw
  | some e =>
    cases hr : (x.ts.db.Write x.written (batchOf x.ts)).r with
    | none => simp [Response.Error]
    | some resp => simp [herr, hr] at hw

/-- The two ways out of `flush`: the buffer is empty and the status is kept, or
the goroutine has panicked and the buffer is kept. -/
theorem flush_cases (x : Exec) :
    ((flush x).ts.pointsBuf = [] ∧ (flush x).status = x.status) ∨
    ((flush x).ts.pointsBuf = x.ts.pointsBuf ∧ (flush x).status = Status.panicked) := by
  cases hw : (x.ts.db.Write x.written (batchOf x.ts)).survivable with
  | true => left; rw [flush_of_survivable x hw]; exact ⟨rfl, rfl⟩
  | false => right; rw [flush_of_not_survivable x hw]; exact ⟨rfl, rfl⟩

/-! ## Facts about `step` and `loop` -/

theorem loop_nil (max : Int) (x : Exec) : loop max x [] = x := rfl

theorem loop_cons (max : Int) (x : Exec) (e : Event) (es : List Event) :
    loop max x (e :: es) = loop max (step max x e) es := rfl

theorem loop_append (max : Int) (x : Exec) (es fs : List Event) :
    loop max x (es ++ fs) = loop max (loop max x es) fs := by
  simp [loop, List.foldl_append]

/-- A goroutine that has returned or panicked receives nothing. -/
theorem step_of_not_running (max : Int) (x : Exec) (e : Event)
    (h : x.status ≠ Status.running) : step max x e = x := by
  unfold step
  split
  · next hs => exact absurd hs h
  · rfl

theorem loop_of_not_running (max : Int) (x : Exec) (es : List Event)
    (h : x.status ≠ Status.running) : loop max x es = x := by
  induction es with
  | nil => rfl
  | cons e es ih => rw [loop_cons, step_of_not_running max x e h, ih]

theorem step_stop (max : Int) (x : Exec) (h : x.status = Status.running) :
    step max x Event.stop = leaveLoop (flush x) := by
  unfold step
  simp [h]

theorem step_accept (max : Int) (x : Exec) (point : Point) (h : x.status = Status.running) :
    step max x (Event.accept point) =
      if ((appendPoint x point).ts.pointsBuf.length : Int) = max
      then flush (appendPoint x point) else appendPoint x point := by
  unfold step
  simp [h]

theorem step_tick (max : Int) (x : Exec) (h : x.status = Status.running) :
    step max x Event.tick = if 0 < x.ts.pointsBuf.length then flush x else x := by
  unfold step
  simp [h]

theorem leaveLoop_pointsBuf (x : Exec) : (leaveLoop x).ts.pointsBuf = x.ts.pointsBuf := by
  unfold leaveLoop
  split <;> rfl

theorem leaveLoop_written (x : Exec) : (leaveLoop x).written = x.written := by
  unfold leaveLoop
  split <;> rfl

theorem leaveLoop_not_running (x : Exec) : (leaveLoop x).status ≠ Status.running := by
  unfold leaveLoop
  split
  · next h => simp [h]
  · simp

theorem leaveLoop_panicked_iff (x : Exec) :
    (leaveLoop x).status = Status.panicked ↔ x.status = Status.panicked := by
  unfold leaveLoop
  split
  · next h => simp [h]
  · next h => simp; exact fun hp => h hp

theorem bounded_flush (max : Int) (hmax : 0 < max) (x : Exec)
    (hx : (x.ts.pointsBuf.length : Int) ≤ max) : Bounded max (flush x) := by
  rcases flush_cases x with ⟨hb, _⟩ | ⟨hb, hp⟩
  · refine ⟨?_, fun _ => ?_⟩ <;> simp [hb] <;> omega
  · refine ⟨by rw [hb]; exact hx, fun hn => absurd hp hn⟩

theorem bounded_step (max : Int) (hmax : 0 < max) (x : Exec) (e : Event)
    (hx : Bounded max x) : Bounded max (step max x e) := by
  by_cases hr : x.status = Status.running
  · have hnp : x.status ≠ Status.panicked := by simp [hr]
    have hlt := hx.2 hnp
    cases e with
    | stop =>
      rw [step_stop max x hr]
      have hf := bounded_flush max hmax x hx.1
      refine ⟨?_, fun hn => ?_⟩
      · rw [leaveLoop_pointsBuf]; exact hf.1
      · rw [leaveLoop_pointsBuf]
        exact hf.2 (fun hp => hn ((leaveLoop_panicked_iff _).2 hp))
    | accept point =>
      rw [step_accept max x point hr]
      have hlen : ((appendPoint x point).ts.pointsBuf.length : Int)
          = (x.ts.pointsBuf.length : Int) + 1 := by
        simp [appendPoint]
      split
      · next heq =>
        exact bounded_flush max hmax _ (by omega)
      · next hne =>
        refine ⟨by omega, fun _ => by omega⟩
    | tick =>
      rw [step_tick max x hr]
      split
      · exact bounded_flush max hmax x hx.1
      · exact hx
  · rw [step_of_not_running max x e hr]
    exact hx

theorem bounded_loop (max : Int) (hmax : 0 < max) (es : List Event) (x : Exec)
    (hx : Bounded max x) : Bounded max (loop max x es) := by
  induction es generalizing x with
  | nil => exact hx
  | cons e es ih => rw [loop_cons]; exact ih _ (bounded_step max hmax x e hx)

theorem bounded_new (max : Int) (hmax : 0 < max) (config : Configuration) (client : Client) :
    Bounded max (NewTimeSeries config client) := by
  refine ⟨?_, fun _ => ?_⟩ <;> simp [NewTimeSeries] <;> omega

/-- With a sink whose failures always carry a response the goroutine never
panics. -/
theorem loop_never_panics (max : Int) (es : List Event) (x : Exec)
    (hdb : ∀ sent batch, (x.ts.db.Write sent batch).survivable = true)
    (hx : x.status ≠ Status.panicked) :
    (loop max x es).status ≠ Status.panicked ∧ (loop max x es).ts.db = x.ts.db := by
  induction es generalizing x with
  | nil => exact ⟨hx, rfl⟩
  | cons e es ih =>
    rw [loop_cons]
    have hf : ∀ y : Exec, y.ts.db = x.ts.db → y.status ≠ Status.panicked →
        (flush y).status ≠ Status.panicked ∧ (flush y).ts.db = x.ts.db := by
      intro y hy hs
      rw [flush_of_survivable y (by rw [hy]; exact hdb _ _)]
      exact ⟨hs, hy⟩
    have hstep : (step max x e).status ≠ Status.panicked ∧ (step max x e).ts.db = x.ts.db := by
      by_cases hr : x.status = Status.running
      · cases e with
        | stop =>
          rw [step_stop max x hr]
          have h1 := hf x rfl hx
          refine ⟨fun hp => h1.1 ((leaveLoop_panicked_iff _).1 hp), ?_⟩
          unfold leaveLoop
          split <;> exact h1.2
        | accept point =>
          rw [step_accept max x point hr]
          split
          · exact hf _ rfl (by simpa [appendPoint] using hx)
          · exact ⟨by simpa [appendPoint] using hx, rfl⟩
        | tick =>
          rw [step_tick max x hr]
          split
          · exact hf x rfl hx
          · exact ⟨hx, rfl⟩
      · rw [step_of_not_running max x e hr]
        exact ⟨hx, rfl⟩
    have h2 := ih (step max x e) (by rw [hstep.2]; exact hdb) hstep.1
    exact ⟨h2.1, h2.2.trans hstep.2⟩

/-! ## Conservation of points -/

theorem writtenPoints_flush (x : Exec) :
    writtenPoints (flush x) = writtenPoints x ++ x.ts.pointsBuf := by
  simp [writtenPoints, flush_written, batchOf]

theorem pending_flush (x : Exec) : pending (flush x) = [] := by
  rcases flush_cases x with ⟨hb, _⟩ | ⟨_, hp⟩
  · unfold pending
    split
    · rfl
    · exact hb
  · simp [pending, hp]

theorem pending_of_running (x : Exec) (h : x.status = Status.running) :
    pending x = x.ts.pointsBuf := by
  simp [pending, h]

theorem pending_leaveLoop (x : Exec) : pending (leaveLoop x) = pending x := by
  unfold leaveLoop
  split
  · rfl
  · next h =>
    unfold pending
    cases hs : x.status with
    | panicked => exact absurd hs h
    | running => rfl
    | returned => rfl

theorem writtenPoints_leaveLoop (x : Exec) : writtenPoints (leaveLoop x) = writtenPoints x := by
  simp [writtenPoints, leaveLoop_written]

/-- One iteration neither loses nor repeats a point. -/
theorem step_conserves (max : Int) (x : Exec) (e : Event) (hr : x.status = Status.running) :
    writtenPoints (step max x e) ++ pending (step max x e) =
      writtenPoints x ++ pending x ++ acceptedPoints [e] := by
  rw [pending_of_running x hr]
  cases e with
  | stop =>
    rw [step_stop max x hr, writtenPoints_leaveLoop, pending_leaveLoop, writtenPoints_flush,
      pending_flush]
    simp [acceptedPoints]
  | accept point =>
    rw [step_accept max x point hr]
    split
    · rw [writtenPoints_flush, pending_flush]
      simp [acceptedPoints, appendPoint, writtenPoints]
    · rw [pending_of_running _ (by simpa [appendPoint] using hr)]
      simp [acceptedPoints, appendPoint, writtenPoints]
  | tick =>
    rw [step_tick max x hr]
    split
    · rw [writtenPoints_flush, pending_flush]
      simp [acceptedPoints]
    · rw [pending_of_running x hr]
      simp [acceptedPoints]

theorem acceptedPoints_cons (e : Event) (es : List Event) :
    acceptedPoints (e :: es) = acceptedPoints [e] ++ acceptedPoints es := by
  cases e <;> simp [acceptedPoints, List.filterMap_cons]

/-- What the sink has seen, then what is still buffered, is an initial segment
of what was there at the start followed by the points sent to the loop; the
remainder, if any, was sent after the goroutine had ended. -/
theorem loop_conserves (max : Int) (es : List Event) (x : Exec) :
    ∃ rest, writtenPoints (loop max x es) ++ pending (loop max x es) ++ rest =
      writtenPoints x ++ pending x ++ acceptedPoints es := by
  induction es generalizing x with
  | nil => exact ⟨[], by simp [loop_nil, acceptedPoints]⟩
  | cons e es ih =>
    by_cases hr : x.status = Status.running
    · obtain ⟨rest, h⟩ := ih (step max x e)
      refine ⟨rest, ?_⟩
      rw [loop_cons, h, step_conserves max x e hr, acceptedPoints_cons e es]
      simp [List.append_assoc]
    · exact ⟨acceptedPoints (e :: es), by rw [loop_of_not_running max x _ hr]⟩

/-! ## Accepting points below the threshold -/

/-- As long as the threshold is not reached, accepting only appends. -/
theorem loop_accepts_below (max : Int) (points : List Point) (x : Exec)
    (hr : x.status = Status.running)
    (hlen : (x.ts.pointsBuf.length : Int) + (points.length : Int) < max) :
    loop max x (points.map Event.accept) =
      { x with ts := { x.ts with pointsBuf := x.ts.pointsBuf ++ points } } := by
  induction points generalizing x with
  | nil => simp [loop_nil]
  | cons point points ih =>
    have hl : ((appendPoint x point).ts.pointsBuf.length : Int)
        = (x.ts.pointsBuf.length : Int) + 1 := by
      simp [appendPoint]
    have hcons : ((point :: points).length : Int) = (points.length : Int) + 1 := by simp
    have hne : ¬ ((appendPoint x point).ts.pointsBuf.length : Int) = max := by omega
    rw [List.map_cons, loop_cons, step_accept max x point hr, if_neg hne,
      ih (appendPoint x point) (by simpa [appendPoint] using hr) (by omega)]
    simp [appendPoint]

/-! ## The stop arm and the size of batches -/

/-- The stop arm calls `flush` whatever the buffer holds: exactly one batch is
added, its points are the buffer, and the loop is left. -/
theorem step_stop_written (max : Int) (x : Exec) (hr : x.status = Status.running) :
    (step max x Event.stop).written = x.written ++ [batchOf x.ts] ∧
    (step max x Event.stop).status ≠ Status.running := by
  rw [step_stop max x hr]
  exact ⟨by rw [leaveLoop_written, flush_written], leaveLoop_not_running _⟩

/-- When the final write comes back, the stop arm leaves an empty buffer and a
returned goroutine. -/
theorem step_stop_of_survivable (max : Int) (x : Exec) (hr : x.status = Status.running)
    (hw : (x.ts.db.Write x.written (batchOf x.ts)).survivable = true) :
    step max x Event.stop =
      { ts := { x.ts with pointsBuf := [] }
        written := x.written ++ [batchOf x.ts]
        status := Status.returned } := by
  rw [step_stop max x hr, flush_of_survivable x hw]
  simp [leaveLoop, hr]

/-- The accept arm and the tick arm never write a batch without points. -/
theorem step_batches_nonempty (max : Int) (x : Exec) (e : Event)
    (he : e ≠ Event.stop) (hx : ∀ b ∈ x.written, b.Points ≠ []) :
    ∀ b ∈ (step max x e).written, b.Points ≠ [] := by
  by_cases hr : x.status = Status.running
  · cases e with
    | stop => exact absurd rfl he
    | accept point =>
      rw [step_accept max x point hr]
      split
      · intro b hb
        rw [flush_written, List.mem_append, List.mem_singleton] at hb
        rcases hb with hb | hb
        · exact hx b hb
        · subst hb
          simp [batchOf, appendPoint]
      · exact hx
    | tick =>
      rw [step_tick max x hr]
      split
      · next hpos =>
        intro b hb
        rw [flush_written, List.mem_append, List.mem_singleton] at hb
        rcases hb with hb | hb
        · exact hx b hb
        · subst hb
          exact List.length_pos.mp hpos
      · exact hx
  · rw [step_of_not_running max x e hr]
    exact hx

/-- Without a stop, every batch written has at least one point. -/
theorem loop_batches_nonempty (max : Int) (es : List Event) (x : Exec)
    (hes : ∀ e ∈ es, e ≠ Event.stop) (hx : ∀ b ∈ x.written, b.Points ≠ []) :
    ∀ b ∈ (loop max x es).written, b.Points ≠ [] := by
  induction es generalizing x with
  | nil => exact hx
  | cons e es ih =>
    rw [loop_cons]
    exact ih (step max x e) (fun e1 h1 => hes e1 (List.mem_cons_of_mem e h1))
      (step_batches_nonempty max x e (hes e (List.mem_cons_self e es)) hx)

/-! ## Further facts about the loop -/

theorem leaveLoop_config (x : Exec) : (leaveLoop x).ts.config = x.ts.config := by
  unfold leaveLoop
  split <;> rfl

theorem step_config (max : Int) (x : Exec) (e : Event) :
    (step max x e).ts.config = x.ts.config := by
  by_cases hr : x.status = Status.running
  · cases e with
    | stop => rw [step_stop max x hr, leaveLoop_config, flush_config]
    | accept point =>
      rw [step_accept max x point hr]
      split
      · rw [flush_config]; rfl
      · rfl
    | tick =>
      rw [step_tick max x hr]
      split
      · rw [flush_config]
      · rfl
  · rw [step_of_not_running max x e hr]

theorem loop_config (max : Int) (es : List Event) (x : Exec) :
    (loop max x es).ts.config = x.ts.config := by
  induction es generalizing x with
  | nil => rfl
  | cons e es ih => rw [loop_cons, ih, step_config]

/-- Whatever one iteration writes is the batch literal of `flush` for the
configuration in force. -/
theorem step_batches_target (max : Int) (x : Exec) (e : Event)
    (hx : ∀ b ∈ x.written, b.Database = x.ts.config.DbName ∧ b.RetentionPolicy = "default") :
    ∀ b ∈ (step max x e).written,
      b.Database = x.ts.config.DbName ∧ b.RetentionPolicy = "default" := by
  have hf : ∀ y : Exec, y.written = x.written → y.ts.config = x.ts.config →
      ∀ b ∈ (flush y).written,
        b.Database = x.ts.config.DbName ∧ b.RetentionPolicy = "default" := by
    intro y hyw hyc b hb
    rw [flush_written, List.mem_append, List.mem_singleton, hyw] at hb
    rcases hb with hb | hb
    · exact hx b hb
    · subst hb
      exact ⟨by simp [batchOf, hyc], rfl⟩
  by_cases hr : x.status = Status.running
  · cases e with
    | stop =>
      rw [step_stop max x hr, leaveLoop_written]
      exact hf x rfl rfl
    | accept point =>
      rw [step_accept max x point hr]
      split
      · exact hf _ rfl rfl
      · exact hx
    | tick =>
      rw [step_tick max x hr]
      split
      · exact hf x rfl rfl
      · exact hx
  · rw [step_of_not_running max x e hr]
    exact hx

theorem loop_batches_target (max : Int) (es : List Event) (x : Exec)
    (hx : ∀ b ∈ x.written, b.Database = x.ts.config.DbName ∧ b.RetentionPolicy = "default") :
    ∀ b ∈ (loop max x es).written,
      b.Database = x.ts.config.DbName ∧ b.RetentionPolicy = "default" := by
  induction es generalizing x with
  | nil => exact hx
  | cons e es ih =>
    rw [loop_cons]
    have h := ih (step max x e) (by
      rw [step_config]
      exact step_batches_target max x e hx)
    rw [step_config] at h
    exact h

/-- One iteration writes no batch longer than the threshold. -/
theorem step_batches_bounded (max : Int) (x : Exec) (e : Event) (hx : Bounded max x)
    (hw : ∀ b ∈ x.written, (b.Points.length : Int) ≤ max) :
    ∀ b ∈ (step max x e).written, (b.Points.length : Int) ≤ max := by
  have hf : ∀ y : Exec, y.written = x.written → (y.ts.pointsBuf.length : Int) ≤ max →
      ∀ b ∈ (flush y).written, (b.Points.length : Int) ≤ max := by
    intro y hyw hyl b hb
    rw [flush_written, List.mem_append, List.mem_singleton, hyw] at hb
    rcases hb with hb | hb
    · exact hw b hb
    · subst hb
      exact hyl
  by_cases hr : x.status = Status.running
  · cases e with
    | stop =>
      rw [step_stop max x hr, leaveLoop_written]
      exact hf x rfl hx.1
    | accept point =>
      rw [step_accept max x point hr]
      split
      · next heq => exact hf _ rfl (le_of_eq heq)
      · exact hw
    | tick =>
      rw [step_tick max x hr]
      split
      · exact hf x rfl hx.1
      · exact hw
  · rw [step_of_not_running max x e hr]
    exact hw

theorem loop_batches_bounded (max : Int) (hmax : 0 < max) (es : List Event) (x : Exec)
    (hx : Bounded max x) (hw : ∀ b ∈ x.written, (b.Points.length : Int) ≤ max) :
    ∀ b ∈ (loop max x es).written, (b.Points.length : Int) ≤ max := by
  induction es generalizing x with
  | nil => exact hw
  | cons e es ih =>
    rw [loop_cons]
    exact ih (step max x e) (bounded_step max hmax x e hx) (step_batches_bounded max x e hx hw)

/-- With a write that comes back, the accept arm and the tick arm leave the
loop running and the client in place. -/
theorem step_stays_running (max : Int) (x : Exec) (e : Event) (he : e ≠ Event.stop)
    (hr : x.status = Status.running)
    (hdb : ∀ sent batch, (x.ts.db.Write sent batch).survivable = true) :
    (step max x e).status = Status.running ∧ (step max x e).ts.db = x.ts.db := by
  cases e with
  | stop => exact absurd rfl he
  | accept point =>
    rw [step_accept max x point hr]
    split
    · rw [flush_of_survivable (appendPoint x point) (hdb _ _)]
      exact ⟨hr, rfl⟩
    · exact ⟨hr, rfl⟩
  | tick =>
    rw [step_tick max x hr]
    split
    · rw [flush_of_survivable x (hdb _ _)]
      exact ⟨hr, rfl⟩
    · exact ⟨hr, rfl⟩

/-- With a sink whose writes always come back and no stop among the events,
the loop is still running at the end and every accepted point is either in a
written batch or in the buffer, in arrival order. -/
theorem loop_conserves_of_survivable (max : Int) (es : List Event) (x : Exec)
    (hes : ∀ e ∈ es, e ≠ Event.stop) (hr : x.status = Status.running)
    (hdb : ∀ sent batch, (x.ts.db.Write sent batch).survivable = true) :
    (loop max x es).status = Status.running ∧ (loop max x es).ts.db = x.ts.db ∧
    writtenPoints (loop max x es) ++ (loop max x es).ts.pointsBuf =
      writtenPoints x ++ x.ts.pointsBuf ++ acceptedPoints es := by
  induction es generalizing x with
  | nil => exact ⟨hr, rfl, by simp [loop_nil, acceptedPoints]⟩
  | cons e es ih =>
    have he : e ≠ Event.stop := hes e (List.mem_cons_self e es)
    have hs := step_stays_running max x e he hr hdb
    have hc := step_conserves max x e hr
    rw [pending_of_running x hr, pending_of_running _ hs.1] at hc
    obtain ⟨h1, h2, h3⟩ := ih (step max x e)
      (fun e1 h => hes e1 (List.mem_cons_of_mem e h)) hs.1 (by rw [hs.2]; exact hdb)
    rw [loop_cons]
    refine ⟨h1, h2.trans hs.2, ?_⟩
    rw [h3, hc, acceptedPoints_cons e es]
    simp [List.append_assoc]

/-- Accepting the points that fill the buffer up to the threshold ends in one
flush of the whole buffer. -/
theorem loop_accepts_to_threshold (max : Int) (points : List Point) (x : Exec)
    (hr : x.status = Status.running) (hne : points ≠ [])
    (hlen : (x.ts.pointsBuf.length : Int) + (points.length : Int) = max)
    (hw : (x.ts.db.Write x.written
      { Points := x.ts.pointsBuf ++ points, Database := x.ts.config.DbName
        RetentionPolicy := "default" }).survivable = true) :
    loop max x (points.map Event.accept) =
      { x with ts := { x.ts with pointsBuf := [] }
               written := x.written ++
                 [{ Points := x.ts.pointsBuf ++ points, Database := x.ts.config.DbName
                    RetentionPolicy := "default" }] } := by
  rcases List.eq_nil_or_concat points with hnil | ⟨front, last, hpts⟩
  · exact absurd hnil hne
  · rw [List.concat_eq_append] at hpts
    subst hpts
    have hl : ((front ++ [last]).length : Int) = (front.length : Int) + 1 := by simp
    rw [List.map_append, loop_append, loop_accepts_below max front x hr (by omega)]
    simp only [List.map_cons, List.map_nil, loop_cons, loop_nil]
    rw [step_accept max { x with ts := { x.ts with pointsBuf := x.ts.pointsBuf ++ front } }
      last hr]
    have heq : ((appendPoint { x with ts := { x.ts with pointsBuf := x.ts.pointsBuf ++ front } }
        last).ts.pointsBuf.length : Int) = max := by
      simp only [appendPoint, List.length_append, List.length_singleton, Nat.cast_add,
        Nat.cast_one]
      omega
    rw [if_pos heq, flush_of_survivable
      (appendPoint { x with ts := { x.ts with pointsBuf := x.ts.pointsBuf ++ front } } last)
      (by simpa [appendPoint, batchOf] using hw)]
    simp [appendPoint, batchOf]

/-! ## The conversion of metric values -/

/-- The loop of `transformFields` over any list of entries with distinct keys:
the argument map is left alone, and a key is bound in the result to the boxed
value of its entry, or else to what it was bound to before the loop. -/
theorem transformFields_foldl (l : List (Sigma fun _ : String => Int)) (hl : l.NodupKeys)
    (fr : FieldsFrame) :
    (l.foldl (fun fr e => transformFieldsBody fr e.1 e.2) fr).values = fr.values ∧
    ∀ k : String,
      (l.foldl (fun fr e => transformFieldsBody fr e.1 e.2) fr).fields.lookup k =
        match l.dlookup k with
        | some v => some (Iface.int64 v)
        | none => fr.fields.lookup k := by
  induction l generalizing fr with
  | nil => exact ⟨rfl, fun k => rfl⟩
  | cons e l ih =>
    obtain ⟨a, b⟩ := e
    rw [List.nodupKeys_cons] at hl
    obtain ⟨h1, h2⟩ := ih hl.2 (transformFieldsBody fr a b)
    rw [List.foldl_cons]
    refine ⟨h1, fun k => ?_⟩
    rw [h2 k]
    by_cases hk : k = a
    · subst hk
      have hnone : List.dlookup k l = none := List.dlookup_eq_none.mpr hl.1
      rw [hnone, List.dlookup_cons_eq]
      simp [transformFieldsBody, AList.lookup_insert]
    · rw [List.dlookup_cons_ne l ⟨a, b⟩ hk]
      cases List.dlookup k l with
      | some v => rfl
      | none => simp [transformFieldsBody, AList.lookup_insert_ne hk]

/-! ## The ticker of `run` -/

/-- With a duration that `time.NewTicker` accepts, `run` is the loop. -/
theorem run_of_ticker (fi max : Int) (x : Exec) (es : List Event)
    (h : 0 < tickerDuration fi) : run fi max x es = loop max x es := by
  unfold run
  rw [if_pos h]

/-- With any other duration `run` panics before it receives anything. -/
theorem run_of_no_ticker (fi max : Int) (x : Exec) (es : List Event)
    (h : ¬ 0 < tickerDuration fi) : run fi max x es = { x with status := Status.panicked } := by
  unfold run
  rw [if_neg h]

/-- Up to 9223372036854 milliseconds the product does not wrap around. -/
theorem tickerDuration_of_small (fi : Int) (h0 : 0 ≤ fi) (h1 : fi ≤ 9223372036854) :
    tickerDuration fi = fi * 1000000 := by
  unfold tickerDuration int64
  omega

/-- The interval passed by `NewTimeSeries` makes a ticker. -/
theorem tickerDuration_production : 0 < tickerDuration FLUSH_INTERVAL_MS := by
  decide

theorem bounded_run (fi max : Int) (hmax : 0 < max) (es : List Event) (x : Exec)
    (hx : Bounded max x) : Bounded max (run fi max x es) := by
  by_cases h : 0 < tickerDuration fi
  · rw [run_of_ticker fi max x es h]
    exact bounded_loop max hmax es x hx
  · rw [run_of_no_ticker fi max x es h]
    exact ⟨hx.1, fun hn => absurd rfl hn⟩

theorem run_conserves (fi max : Int) (es : List Event) (x : Exec) :
    ∃ rest, writtenPoints (run fi max x es) ++ pending (run fi max x es) ++ rest =
      writtenPoints x ++ pending x ++ acceptedPoints es := by
  by_cases h : 0 < tickerDuration fi
  · rw [run_of_ticker fi max x es h]
    exact loop_conserves max es x
  · rw [run_of_no_ticker fi max x es h]
    exact ⟨pending x ++ acceptedPoints es, by simp [writtenPoints, pending]⟩

theorem run_config (fi max : Int) (es : List Event) (x : Exec) :
    (run fi max x es).ts.config = x.ts.config := by
  by_cases h : 0 < tickerDuration fi
  · rw [run_of_ticker fi max x es h]
    exact loop_config max es x
  · rw [run_of_no_ticker fi max x es h]

theorem run_batches_target (fi max : Int) (es : List Event) (x : Exec)
    (hx : ∀ b ∈ x.written, b.Database = x.ts.config.DbName ∧ b.RetentionPolicy = "default") :
    ∀ b ∈ (run fi max x es).written,
      b.Database = x.ts.config.DbName ∧ b.RetentionPolicy = "default" := by
  by_cases h : 0 < tickerDuration fi
  · rw [run_of_ticker fi max x es h]
    exact loop_batches_target max es x hx
  · rw [run_of_no_ticker fi max x es h]
    exact hx

theorem run_batches_bounded (fi max : Int) (hmax : 0 < max) (es : List Event) (x : Exec)
    (hx : Bounded max x) (hw : ∀ b ∈ x.written, (b.Points.length : Int) ≤ max) :
    ∀ b ∈ (run fi max x es).written, (b.Points.length : Int) ≤ max := by
  by_cases h : 0 < tickerDuration fi
  · rw [run_of_ticker fi max x es h]
    exact loop_batches_bounded max hmax es x hx hw
  · rw [run_of_no_ticker fi max x es h]
    exact hw

/-! ## When the write does not come back -/

/-- Accepting the points that fill the buffer up to the threshold, with a write
that fails without a response: the batch is handed over, the goroutine panics
and the buffer keeps every point. -/
theorem loop_accepts_to_threshold_not_survivable (max : Int) (points : List Point) (x : Exec)
    (hr : x.status = Status.running) (hne : points ≠ [])
    (hlen : (x.ts.pointsBuf.length : Int) + (points.length : Int) = max)
    (hw : (x.ts.db.Write x.written
      { Points := x.ts.pointsBuf ++ points, Database := x.ts.config.DbName
        RetentionPolicy := "default" }).survivable = false) :
    loop max x (points.map Event.accept) =
      { ts := { x.ts with pointsBuf := x.ts.pointsBuf ++ points }
        written := x.written ++
          [{ Points := x.ts.pointsBuf ++ points, Database := x.ts.config.DbName
             RetentionPolicy := "default" }]
        status := Status.panicked } := by
  rcases List.eq_nil_or_concat points with hnil | ⟨front, last, hpts⟩
  · exact absurd hnil hne
  · rw [List.concat_eq_append] at hpts
    subst hpts
    have hl : ((front ++ [last]).length : Int) = (front.length : Int) + 1 := by simp
    rw [List.map_append, loop_append, loop_accepts_below max front x hr (by omega)]
    simp only [List.map_cons, List.map_nil, loop_cons, loop_nil]
    rw [step_accept max { x with ts := { x.ts with pointsBuf := x.ts.pointsBuf ++ front } }
      last hr]
    have heq : ((appendPoint { x with ts := { x.ts with pointsBuf := x.ts.pointsBuf ++ front } }
        last).ts.pointsBuf.length : Int) = max := by
      simp only [appendPoint, List.length_append, List.length_singleton, Nat.cast_add,
        Nat.cast_one]
      omega
    rw [if_pos heq, flush_of_not_survivable
      (appendPoint { x with ts := { x.ts with pointsBuf := x.ts.pointsBuf ++ front } } last)
      (by simpa [appendPoint, batchOf] using hw)]
    simp [appendPoint, batchOf]

/-! ## When the write comes back -/

/-- When the write comes back, a tick received by the running loop with a
non-empty buffer writes exactly one batch, whose points are the buffer, and
leaves the buffer empty. -/
theorem step_tick_of_survivable (max : Int) (x : Exec)
    (hr : x.status = Status.running) (hne : x.ts.pointsBuf ≠ [])
    (hw : (x.ts.db.Write x.written
      { Points := x.ts.pointsBuf, Database := x.ts.config.DbName
        RetentionPolicy := "default" }).survivable = true) :
    step max x Event.tick =
      { ts := { config := x.ts.config, db := x.ts.db, pointsBuf := [] }
        written := x.written ++
          [{ Points := x.ts.pointsBuf, Database := x.ts.config.DbName
             RetentionPolicy := "default" }]
        status := Status.running } := by
  have hpos : 0 < x.ts.pointsBuf.length := List.length_pos.mpr hne
  rw [step_tick max x hr, if_pos hpos, flush_of_survivable x hw]
  simp [batchOf, hr]

/-- The accept arm, case by case: at `length + 1 = max` exactly the batch of the
old buffer followed by the point is written, and the buffer is empty once that
write has come back; otherwise nothing is written and the buffer is the old
buffer followed by the point. -/
theorem step_accept_cases (max : Int) (x : Exec) (point : Point)
    (hr : x.status = Status.running) :
    ((x.ts.pointsBuf.length : Int) + 1 = max →
      (step max x (Event.accept point)).written = x.written ++
        [{ Points := x.ts.pointsBuf ++ [point], Database := x.ts.config.DbName
           RetentionPolicy := "default" }]) ∧
    ((x.ts.pointsBuf.length : Int) + 1 = max →
      (x.ts.db.Write x.written
        { Points := x.ts.pointsBuf ++ [point], Database := x.ts.config.DbName
          RetentionPolicy := "default" }).survivable = true →
      step max x (Event.accept point) =
        { ts := { config := x.ts.config, db := x.ts.db, pointsBuf := [] }
          written := x.written ++
            [{ Points := x.ts.pointsBuf ++ [point], Database := x.ts.config.DbName
               RetentionPolicy := "default" }]
          status := Status.running }) ∧
    ((x.ts.pointsBuf.length : Int) + 1 ≠ max →
      step max x (Event.accept point) =
        { ts := { config := x.ts.config, db := x.ts.db, pointsBuf := x.ts.pointsBuf ++ [point] }
          written := x.written
          status := Status.running }) := by
  have hl : ((appendPoint x point).ts.pointsBuf.length : Int)
      = (x.ts.pointsBuf.length : Int) + 1 := by
    simp [appendPoint]
  refine ⟨fun heq => ?_, fun heq hw => ?_, fun hne => ?_⟩
  · rw [step_accept max x point hr, if_pos (by omega), flush_written]
    rfl
  · rw [step_accept max x point hr, if_pos (by omega),
      flush_of_survivable (appendPoint x point) hw]
    simp [appendPoint, batchOf, hr]
  · rw [step_accept max x point hr, if_neg (by omega)]
    simp [appendPoint, hr]

/-- With a sink whose writes come back, for every sequence of accepts and ticks
applied from the empty buffer, the points of the written batches followed by
the buffer are the accepted points in arrival order; and when a stop follows,
the points of the written batches alone are the accepted points and the buffer
is empty. -/
theorem loop_conserves_from_new (config : Configuration) (client : Client)
    (max : Int) (events : List Event)
    (hev : ∀ e ∈ events, e ≠ Event.stop)
    (hdb : ∀ sent batch, (client.Write sent batch).survivable = true) :
    writtenPoints (loop max (NewTimeSeries config client) events) ++
        (loop max (NewTimeSeries config client) events).ts.pointsBuf
      = acceptedPoints events ∧
    writtenPoints (loop max (NewTimeSeries config client) (events ++ [Event.stop]))
      = acceptedPoints (events ++ [Event.stop]) ∧
    (loop max (NewTimeSeries config client)
      (events ++ [Event.stop])).ts.pointsBuf = [] := by
  obtain ⟨hr, hd, hc⟩ := loop_conserves_of_survivable max events
    (NewTimeSeries config client) hev rfl hdb
  have h0 : writtenPoints (NewTimeSeries config client)
      ++ (NewTimeSeries config client).ts.pointsBuf = [] := by
    simp [writtenPoints, NewTimeSeries]
  rw [h0, List.nil_append] at hc
  have hacc : acceptedPoints (events ++ [Event.stop]) = acceptedPoints events := by
    simp [acceptedPoints, List.filterMap_append]
  have hw : ((loop max (NewTimeSeries config client) events).ts.db.Write
      (loop max (NewTimeSeries config client) events).written
      (batchOf (loop max (NewTimeSeries config client) events).ts)).survivable
      = true := by
    rw [hd]
    exact hdb _ _
  refine ⟨hc, ?_, ?_⟩
  · rw [hacc, loop_append]
    simp only [loop_cons, loop_nil]
    rw [step_stop_of_survivable max _ hr hw, ← hc]
    simp [writtenPoints, batchOf]
  · rw [loop_append]
    simp only [loop_cons, loop_nil]
    rw [step_stop_of_survivable max _ hr hw]

/-- With a sink whose writes come back, the loop at the threshold 1024 goes
through the scenario of the specification: 1024 accepts write one batch of
those points, 3 accepts and a tick one batch of those 3, a further tick
nothing, 7 accepts and a stop one batch of those 7, and what is sent afterwards
changes nothing. -/
theorem loop_scenario_of_survivable (config : Configuration) (client : Client)
    (p1024 p3 p7 : List Point) (later : List Event)
    (h1024 : p1024.length = 1024) (h3 : p3.length = 3) (h7 : p7.length = 7)
    (hdb : ∀ sent batch, (client.Write sent batch).survivable = true) :
    loop FLUSH_MAX_POINTS (NewTimeSeries config client)
        (p1024.map Event.accept) =
      { ts := { config := config, db := client, pointsBuf := [] }
        written := [{ Points := p1024, Database := config.DbName, RetentionPolicy := "default" }]
        status := Status.running } ∧
    loop FLUSH_MAX_POINTS (NewTimeSeries config client)
        (p1024.map Event.accept ++ (p3.map Event.accept ++ [Event.tick])) =
      { ts := { config := config, db := client, pointsBuf := [] }
        written := [{ Points := p1024, Database := config.DbName, RetentionPolicy := "default" },
                    { Points := p3, Database := config.DbName, RetentionPolicy := "default" }]
        status := Status.running } ∧
    loop FLUSH_MAX_POINTS (NewTimeSeries config client)
        (p1024.map Event.accept ++ (p3.map Event.accept ++ [Event.tick]) ++ [Event.tick]) =
      { ts := { config := config, db := client, pointsBuf := [] }
        written := [{ Points := p1024, Database := config.DbName, RetentionPolicy := "default" },
                    { Points := p3, Database := config.DbName, RetentionPolicy := "default" }]
        status := Status.running } ∧
    loop FLUSH_MAX_POINTS (NewTimeSeries config client)
        (p1024.map Event.accept ++ (p3.map Event.accept ++ [Event.tick]) ++ [Event.tick]
          ++ (p7.map Event.accept ++ [Event.stop]) ++ later) =
      { ts := { config := config, db := client, pointsBuf := [] }
        written := [{ Points := p1024, Database := config.DbName, RetentionPolicy := "default" },
                    { Points := p3, Database := config.DbName, RetentionPolicy := "default" },
                    { Points := p7, Database := config.DbName, RetentionPolicy := "default" }]
        status := Status.returned } := by
  have hne1 : p1024 ≠ [] := by
    intro h
    rw [h] at h1024
    simp at h1024
  have hne3 : p3 ≠ [] := by
    intro h
    rw [h] at h3
    simp at h3
  have e1 : loop FLUSH_MAX_POINTS (NewTimeSeries config client)
      (p1024.map Event.accept) =
      { ts := { config := config, db := client, pointsBuf := [] }
        written := [{ Points := p1024, Database := config.DbName, RetentionPolicy := "default" }]
        status := Status.running } := by
    rw [loop_accepts_to_threshold FLUSH_MAX_POINTS p1024
      (NewTimeSeries config client) rfl hne1
      (by simp [NewTimeSeries, FLUSH_MAX_POINTS, h1024]) (hdb _ _)]
    simp [NewTimeSeries]
  have e2 : loop FLUSH_MAX_POINTS
      { ts := { config := config, db := client, pointsBuf := [] }
        written := [{ Points := p1024, Database := config.DbName, RetentionPolicy := "default" }]
        status := Status.running }
      (p3.map Event.accept ++ [Event.tick]) =
      { ts := { config := config, db := client, pointsBuf := [] }
        written := [{ Points := p1024, Database := config.DbName, RetentionPolicy := "default" },
                    { Points := p3, Database := config.DbName, RetentionPolicy := "default" }]
        status := Status.running } := by
    rw [loop_append, loop_accepts_below FLUSH_MAX_POINTS p3 _ rfl
      (by simp [FLUSH_MAX_POINTS, h3])]
    simp only [loop_cons, loop_nil, List.nil_append]
    rw [step_tick FLUSH_MAX_POINTS _ rfl, if_pos (List.length_pos.mpr hne3),
      flush_of_survivable _ (hdb _ _)]
    simp [batchOf]
  have e3 : step FLUSH_MAX_POINTS
      { ts := { config := config, db := client, pointsBuf := [] }
        written := [{ Points := p1024, Database := config.DbName, RetentionPolicy := "default" },
                    { Points := p3, Database := config.DbName, RetentionPolicy := "default" }]
        status := Status.running } Event.tick =
      { ts := { config := config, db := client, pointsBuf := [] }
        written := [{ Points := p1024, Database := config.DbName, RetentionPolicy := "default" },
                    { Points := p3, Database := config.DbName, RetentionPolicy := "default" }]
        status := Status.running } := by
    rw [step_tick FLUSH_MAX_POINTS _ rfl, if_neg (by simp)]
  have e4 : loop FLUSH_MAX_POINTS
      { ts := { config := config, db := client, pointsBuf := [] }
        written := [{ Points := p1024, Database := config.DbName, RetentionPolicy := "default" },
                    { Points := p3, Database := config.DbName, RetentionPolicy := "default" }]
        status := Status.running }
      (p7.map Event.accept ++ [Event.stop]) =
      { ts := { config := config, db := client, pointsBuf := [] }
        written := [{ Points := p1024, Database := config.DbName, RetentionPolicy := "default" },
                    { Points := p3, Database := config.DbName, RetentionPolicy := "default" },
                    { Points := p7, Database := config.DbName, RetentionPolicy := "default" }]
        status := Status.returned } := by
    rw [loop_append, loop_accepts_below FLUSH_MAX_POINTS p7 _ rfl
      (by simp [FLUSH_MAX_POINTS, h7])]
    simp only [loop_cons, loop_nil, List.nil_append]
    rw [step_stop_of_survivable FLUSH_MAX_POINTS _ rfl (hdb _ _)]
    simp [batchOf]
  have e12 : loop FLUSH_MAX_POINTS (NewTimeSeries config client)
      (p1024.map Event.accept ++ (p3.map Event.accept ++ [Event.tick])) =
      { ts := { config := config, db := client, pointsBuf := [] }
        written := [{ Points := p1024, Database := config.DbName, RetentionPolicy := "default" },
                    { Points := p3, Database := config.DbName, RetentionPolicy := "default" }]
        status := Status.running } := by
    rw [loop_append, e1, e2]
  have e123 : loop FLUSH_MAX_POINTS (NewTimeSeries config client)
      (p1024.map Event.accept ++ (p3.map Event.accept ++ [Event.tick]) ++ [Event.tick]) =
      { ts := { config := config, db := client, pointsBuf := [] }
        written := [{ Points := p1024, Database := config.DbName, RetentionPolicy := "default" },
                    { Points := p3, Database := config.DbName, RetentionPolicy := "default" }]
        status := Status.running } := by
    rw [loop_append FLUSH_MAX_POINTS _
      (p1024.map Event.accept ++ (p3.map Event.accept ++ [Event.tick])) [Event.tick], e12]
    exact e3
  refine ⟨e1, e12, e123, ?_⟩
  rw [loop_append FLUSH_MAX_POINTS _
      (p1024.map Event.accept ++ (p3.map Event.accept ++ [Event.tick]) ++ [Event.tick]
        ++ (p7.map Event.accept ++ [Event.stop])) later,
    loop_append FLUSH_MAX_POINTS _
      (p1024.map Event.accept ++ (p3.map Event.accept ++ [Event.tick]) ++ [Event.tick])
      (p7.map Event.accept ++ [Event.stop]), e123, e4]
  exact loop_of_not_running _ _ later (by simp)

/-! ## The claims -/

/-- C1: for every threshold `flushMaxPoints > 0` and every finite sequence of
events applied from the empty buffer of `NewTimeSeries`, the buffer never holds
more than `flushMaxPoints` points (neither between two events nor right after
the append of the accept arm), and once an event has been processed to its end
(the goroutine did not panic in it) the buffer holds strictly fewer. -/
theorem buffer_never_exceeds_threshold (config : Configuration) (client : Client)
    (flushInterval flushMaxPoints : Int) (hmax : 0 < flushMaxPoints) (events : List Event) :
    ((run flushInterval flushMaxPoints (NewTimeSeries config client) events).ts.pointsBuf.length
        : Int) ≤ flushMaxPoints ∧
    ((run flushInterval flushMaxPoints (NewTimeSeries config client) events).status
        ≠ Status.panicked →
      ((run flushInterval flushMaxPoints (NewTimeSeries config client) events).ts.pointsBuf.length
        : Int) < flushMaxPoints) ∧
    (∀ point : Point,
      (run flushInterval flushMaxPoints (NewTimeSeries config client) events).status
        = Status.running →
      ((appendPoint (run flushInterval flushMaxPoints (NewTimeSeries config client) events)
        point).ts.pointsBuf.length : Int) ≤ flushMaxPoints) := by
  have hb := bounded_run flushInterval flushMaxPoints hmax events _
    (bounded_new flushMaxPoints hmax config client)
  refine ⟨hb.1, hb.2, fun point hr => ?_⟩
  have hlt := hb.2 (by simp [hr])
  have hl : ((appendPoint (run flushInterval flushMaxPoints (NewTimeSeries config client) events)
      point).ts.pointsBuf.length : Int)
      = ((run flushInterval flushMaxPoints (NewTimeSeries config client)
          events).ts.pointsBuf.length : Int) + 1 := by
    simp [appendPoint]
  omega

/-- C1, at threshold 2 on two accepts and a tick. -/
theorem buffer_never_exceeds_threshold_witness :
    (0 : Int) < 2 ∧
    ((run 5000 2 (NewTimeSeries sampleConfig okClient)
        [Event.accept (samplePoint 1), Event.accept (samplePoint 2), Event.tick]).ts.pointsBuf.length
        : Int) ≤ 2 :=
  ⟨by decide,
    (buffer_never_exceeds_threshold sampleConfig okClient 5000 2 (by decide)
      [Event.accept (samplePoint 1), Event.accept (samplePoint 2), Event.tick]).1⟩

/-- C2, evaluated: a stop received with an empty buffer hands the sink a batch
without any point. -/
theorem stop_on_empty_buffer_writes_empty_batch :
    (run FLUSH_INTERVAL_MS FLUSH_MAX_POINTS (NewTimeSeries sampleConfig okClient)
      [Event.stop]).written =
      [{ Points := [], Database := "metrics", RetentionPolicy := "default" }] := by
  rfl

/-- C3, evaluated: a stop with zero buffered points still makes one call of
`Write`, and then the loop has returned. -/
theorem stop_with_zero_points_flushes_once :
    (step FLUSH_MAX_POINTS (NewTimeSeries sampleConfig okClient) Event.stop).written.length = 1 ∧
    (step FLUSH_MAX_POINTS (NewTimeSeries sampleConfig okClient) Event.stop).status
      = Status.returned := by
  exact ⟨rfl, rfl⟩

/-- C4: for every threshold `max` and every sequence of `N < max` accepted
points, from the empty buffer and without tick or stop, nothing is written; and
when the flush interval is one that `time.NewTicker` accepts (a positive
duration), the buffer holds exactly those points in arrival order and the loop
is still running. -/
theorem accepts_below_threshold_are_buffered (config : Configuration) (client : Client)
    (flushInterval max : Int) (points : List Point) (hN : (points.length : Int) < max) :
    (run flushInterval max (NewTimeSeries config client) (points.map Event.accept)).written
      = [] ∧
    (0 < tickerDuration flushInterval →
      run flushInterval max (NewTimeSeries config client) (points.map Event.accept) =
        { ts := { config := config, db := client, pointsBuf := points }
          written := []
          status := Status.running }) := by
  have hloop : loop max (NewTimeSeries config client) (points.map Event.accept) =
      { ts := { config := config, db := client, pointsBuf := points }
        written := []
        status := Status.running } := by
    rw [loop_accepts_below max points (NewTimeSeries config client) rfl
      (by simpa [NewTimeSeries] using hN)]
    simp [NewTimeSeries]
  refine ⟨?_, fun hfi => ?_⟩
  · by_cases hfi : 0 < tickerDuration flushInterval
    · rw [run_of_ticker _ _ _ _ hfi, hloop]
    · rw [run_of_no_ticker _ _ _ _ hfi]
      rfl
  · rw [run_of_ticker _ _ _ _ hfi, hloop]

/-- C4, at the interval 5000 and the threshold 3 on two points. -/
theorem accepts_below_threshold_are_buffered_witness :
    (([samplePoint 1, samplePoint 2].length : Nat) : Int) < 3 ∧
    0 < tickerDuration 5000 ∧
    run 5000 3 (NewTimeSeries sampleConfig okClient)
        ([samplePoint 1, samplePoint 2].map Event.accept) =
      { ts := { config := sampleConfig, db := okClient
                pointsBuf := [samplePoint 1, samplePoint 2] }
        written := []
        status := Status.running } :=
  ⟨by decide, by decide,
    (accepts_below_threshold_are_buffered sampleConfig okClient 5000 3
      [samplePoint 1, samplePoint 2] (by decide)).2 (by decide)⟩

/-- C5, evaluated: at the threshold 2 with a sink that cannot be reached, the two
accepted points are handed over in one batch, but `flush` panics before the
reset: the buffer still holds both points and the loop has ended. -/
theorem threshold_flush_keeps_buffer_when_sink_is_down :
    (run FLUSH_INTERVAL_MS 2 (NewTimeSeries sampleConfig downClient)
      [Event.accept (samplePoint 1), Event.accept (samplePoint 2)]).written
      = [{ Points := [samplePoint 1, samplePoint 2], Database := "metrics"
           RetentionPolicy := "default" }] ∧
    (run FLUSH_INTERVAL_MS 2 (NewTimeSeries sampleConfig downClient)
      [Event.accept (samplePoint 1), Event.accept (samplePoint 2)]).ts.pointsBuf
      = [samplePoint 1, samplePoint 2] ∧
    (run FLUSH_INTERVAL_MS 2 (NewTimeSeries sampleConfig downClient)
      [Event.accept (samplePoint 1), Event.accept (samplePoint 2)]).status
      = Status.panicked := by
  exact ⟨rfl, rfl, rfl⟩

/-- C6: a tick with an empty buffer writes nothing and leaves the whole state
as it was: the buffer is still empty and the loop still running. -/
theorem tick_on_empty_buffer_is_noop (max : Int) (x : Exec) (hempty : x.ts.pointsBuf = []) :
    step max x Event.tick = x := by
  by_cases hr : x.status = Status.running
  · rw [step_tick max x hr, if_neg (by simp [hempty])]
  · exact step_of_not_running max x Event.tick hr

/-- C6, on the freshly created batcher. -/
theorem tick_on_empty_buffer_is_noop_witness :
    (NewTimeSeries sampleConfig okClient).ts.pointsBuf = [] ∧
    step FLUSH_MAX_POINTS (NewTimeSeries sampleConfig okClient) Event.tick
      = NewTimeSeries sampleConfig okClient :=
  ⟨rfl, tick_on_empty_buffer_is_noop FLUSH_MAX_POINTS (NewTimeSeries sampleConfig okClient) rfl⟩

/-- C7, evaluated: a tick on a buffer of one point with a sink that cannot be
reached hands over the batch, but the buffer is not emptied: it still holds the
point. -/
theorem tick_keeps_buffer_when_sink_is_down :
    (step FLUSH_MAX_POINTS (appendPoint (NewTimeSeries sampleConfig downClient) (samplePoint 1))
      Event.tick).written
      = [{ Points := [samplePoint 1], Database := "metrics", RetentionPolicy := "default" }] ∧
    (step FLUSH_MAX_POINTS (appendPoint (NewTimeSeries sampleConfig downClient) (samplePoint 1))
      Event.tick).ts.pointsBuf = [samplePoint 1] := by
  exact ⟨rfl, rfl⟩

/-- C8: in every run from the empty buffer, each batch handed to the sink is a
contiguous segment of the sequence of accepted points, in arrival order, and it
starts right where the batches written before it end. -/
theorem batches_preserve_arrival_order (config : Configuration) (client : Client)
    (flushInterval max : Int) (events : List Event)
    (before after : List BatchPoints) (batch : BatchPoints)
    (h : (run flushInterval max (NewTimeSeries config client) events).written
      = before ++ batch :: after) :
    ∃ rest, acceptedPoints events
      = (before.map BatchPoints.Points).flatten ++ batch.Points ++ rest := by
  obtain ⟨rest, hc⟩ := run_conserves flushInterval max events (NewTimeSeries config client)
  refine ⟨(after.map BatchPoints.Points).flatten
      ++ pending (run flushInterval max (NewTimeSeries config client) events) ++ rest, ?_⟩
  have h0 : writtenPoints (NewTimeSeries config client) ++ pending (NewTimeSeries config client)
      = [] := by
    simp [writtenPoints, pending, NewTimeSeries]
  rw [h0, List.nil_append] at hc
  rw [← hc]
  simp [writtenPoints, h, List.append_assoc]

/-- C8, at threshold 2: three accepts and a tick give the batches `[1, 2]` and
`[3]`; the second one is looked at. -/
theorem batches_preserve_arrival_order_witness :
    (run 5000 2 (NewTimeSeries sampleConfig okClient)
        [Event.accept (samplePoint 1), Event.accept (samplePoint 2),
         Event.accept (samplePoint 3), Event.tick]).written
      = [{ Points := [samplePoint 1, samplePoint 2], Database := "metrics"
           RetentionPolicy := "default" }]
        ++ { Points := [samplePoint 3], Database := "metrics"
             RetentionPolicy := "default" } :: [] ∧
    ∃ rest, acceptedPoints
        [Event.accept (samplePoint 1), Event.accept (samplePoint 2),
         Event.accept (samplePoint 3), Event.tick]
      = ([({ Points := [samplePoint 1, samplePoint 2], Database := "metrics"
             RetentionPolicy := "default" } : BatchPoints)].map BatchPoints.Points).flatten
        ++ [samplePoint 3] ++ rest :=
  ⟨rfl,
    batches_preserve_arrival_order sampleConfig okClient 5000 2
      [Event.accept (samplePoint 1), Event.accept (samplePoint 2),
       Event.accept (samplePoint 3), Event.tick]
      [{ Points := [samplePoint 1, samplePoint 2], Database := "metrics"
         RetentionPolicy := "default" }] []
      { Points := [samplePoint 3], Database := "metrics", RetentionPolicy := "default" } rfl⟩

/-- C9, evaluated: when the sink cannot be reached (`Write` returns a nil
response with the error), `flush` has handed over the batch but panics while
printing, and the buffer still holds the point. -/
theorem flush_keeps_buffer_when_write_fails_without_response :
    (flush (appendPoint (NewTimeSeries sampleConfig downClient) (samplePoint 1))).status
      = Status.panicked ∧
    (flush (appendPoint (NewTimeSeries sampleConfig downClient) (samplePoint 1))).ts.pointsBuf
      = [samplePoint 1] ∧
    (flush (appendPoint (NewTimeSeries sampleConfig downClient) (samplePoint 1))).written
      = [{ Points := [samplePoint 1], Database := "metrics", RetentionPolicy := "default" }] := by
  exact ⟨rfl, rfl, rfl⟩

/-- C10, evaluated: with a sink that cannot be reached, the first tick on a
non-empty buffer ends the loop without any stop; the points sent afterwards are
never received and nothing is written any more. -/
theorem unreachable_sink_ends_the_loop :
    (run FLUSH_INTERVAL_MS FLUSH_MAX_POINTS (NewTimeSeries sampleConfig downClient)
      [Event.accept (samplePoint 1), Event.tick]).status = Status.panicked ∧
    (run FLUSH_INTERVAL_MS FLUSH_MAX_POINTS (NewTimeSeries sampleConfig downClient)
      [Event.accept (samplePoint 1), Event.tick, Event.accept (samplePoint 2),
       Event.tick]).written
      = [{ Points := [samplePoint 1], Database := "metrics", RetentionPolicy := "default" }] := by
  exact ⟨rfl, rfl⟩

/-- C11, evaluated: with a sink that cannot be reached and one point buffered,
the running loop does not stay running across a tick, nor across the accept
that reaches the threshold, and a stop ends it in the panic of the final flush
instead of the return. -/
theorem running_loop_ends_without_stop_when_sink_is_down :
    (appendPoint (NewTimeSeries sampleConfig downClient) (samplePoint 1)).status
      = Status.running ∧
    (step FLUSH_MAX_POINTS (appendPoint (NewTimeSeries sampleConfig downClient) (samplePoint 1))
      Event.tick).status = Status.panicked ∧
    (step 2 (appendPoint (NewTimeSeries sampleConfig downClient) (samplePoint 1))
      (Event.accept (samplePoint 2))).status = Status.panicked ∧
    (step FLUSH_MAX_POINTS (appendPoint (NewTimeSeries sampleConfig downClient) (samplePoint 1))
      Event.stop).status = Status.panicked := by
  exact ⟨rfl, rfl, rfl, rfl⟩

/-- C12: for every threshold `flushMaxPoints > 0`, every sink and every sequence
of events applied from the empty buffer, each batch handed to the sink holds at
most `flushMaxPoints` points. -/
theorem batches_are_bounded (config : Configuration) (client : Client)
    (flushInterval flushMaxPoints : Int) (hmax : 0 < flushMaxPoints) (events : List Event)
    (batch : BatchPoints)
    (hb : batch ∈ (run flushInterval flushMaxPoints (NewTimeSeries config client) events).written) :
    (batch.Points.length : Int) ≤ flushMaxPoints :=
  run_batches_bounded flushInterval flushMaxPoints hmax events (NewTimeSeries config client)
    (bounded_new flushMaxPoints hmax config client) (by simp [NewTimeSeries]) batch hb

/-- C12, at threshold 2: the batch written by two accepts. -/
theorem batches_are_bounded_witness :
    (0 : Int) < 2 ∧
    ({ Points := [samplePoint 1, samplePoint 2], Database := "metrics"
       RetentionPolicy := "default" } : BatchPoints) ∈
      (run 5000 2 (NewTimeSeries sampleConfig okClient)
        [Event.accept (samplePoint 1), Event.accept (samplePoint 2), Event.stop]).written ∧
    ((({ Points := [samplePoint 1, samplePoint 2], Database := "metrics"
         RetentionPolicy := "default" } : BatchPoints).Points.length : Nat) : Int) ≤ 2 :=
  ⟨by decide, List.Mem.head _,
    batches_are_bounded sampleConfig okClient 5000 2 (by decide)
      [Event.accept (samplePoint 1), Event.accept (samplePoint 2), Event.stop]
      { Points := [samplePoint 1, samplePoint 2], Database := "metrics"
        RetentionPolicy := "default" } (List.Mem.head _)⟩

/-- C13: `flush` hands the sink the buffer under the database name of the
configuration and the retention policy "default", whatever the buffer and the
configuration, and leaves the configuration as it is; hence every batch written
in a run from `NewTimeSeries config` carries `config.DbName` and "default". -/
theorem batches_carry_configured_target (config : Configuration) (client : Client)
    (flushInterval max : Int) (events : List Event) (x : Exec) (batch : BatchPoints)
    (hb : batch ∈ (run flushInterval max (NewTimeSeries config client) events).written) :
    (flush x).written = x.written ++
      [{ Points := x.ts.pointsBuf, Database := x.ts.config.DbName
         RetentionPolicy := "default" }] ∧
    (flush x).ts.config = x.ts.config ∧
    (run flushInterval max (NewTimeSeries config client) events).ts.config = config ∧
    batch.Database = config.DbName ∧ batch.RetentionPolicy = "default" := by
  refine ⟨flush_written x, flush_config x, run_config _ _ _ _, ?_⟩
  exact run_batches_target flushInterval max events (NewTimeSeries config client)
    (by simp [NewTimeSeries]) batch hb

/-- C13, on the batch written by an accept and a tick. -/
theorem batches_carry_configured_target_witness :
    ({ Points := [samplePoint 1], Database := "metrics"
       RetentionPolicy := "default" } : BatchPoints) ∈
      (run 5000 2 (NewTimeSeries sampleConfig rejectingClient)
        [Event.accept (samplePoint 1), Event.tick]).written ∧
    ({ Points := [samplePoint 1], Database := "metrics"
       RetentionPolicy := "default" } : BatchPoints).Database = sampleConfig.DbName :=
  ⟨List.Mem.head _,
    (batches_carry_configured_target sampleConfig rejectingClient 5000 2
      [Event.accept (samplePoint 1), Event.tick]
      (NewTimeSeries sampleConfig rejectingClient)
      { Points := [samplePoint 1], Database := "metrics", RetentionPolicy := "default" }
      (List.Mem.head _)).2.2.2.1⟩

/-- C14, evaluated: with the production constants and a sink that cannot be
reached, the 1024 accepted points are handed over in one batch, but the buffer
still holds all of them and the loop has ended; the rest of the scenario (3
points and a tick, a tick, 7 points and a stop) is never received and writes
nothing. -/
theorem scenario_ends_at_first_flush_when_sink_is_down :
    run FLUSH_INTERVAL_MS FLUSH_MAX_POINTS (NewTimeSeries sampleConfig downClient)
        ((List.replicate 1024 (samplePoint 1)).map Event.accept) =
      { ts := { config := sampleConfig, db := downClient
                pointsBuf := List.replicate 1024 (samplePoint 1) }
        written := [{ Points := List.replicate 1024 (samplePoint 1), Database := "metrics"
                      RetentionPolicy := "default" }]
        status := Status.panicked } ∧
    (run FLUSH_INTERVAL_MS FLUSH_MAX_POINTS (NewTimeSeries sampleConfig downClient)
        ((List.replicate 1024 (samplePoint 1)).map Event.accept
          ++ ((List.replicate 3 (samplePoint 2)).map Event.accept ++ [Event.tick])
          ++ [Event.tick]
          ++ ((List.replicate 7 (samplePoint 3)).map Event.accept ++ [Event.stop]))).written
      = [{ Points := List.replicate 1024 (samplePoint 1), Database := "metrics"
           RetentionPolicy := "default" }] := by
  have hlen : (((NewTimeSeries sampleConfig downClient).ts.pointsBuf.length : Nat) : Int)
      + (((List.replicate 1024 (samplePoint 1)).length : Nat) : Int) = FLUSH_MAX_POINTS := by
    rw [List.length_replicate]
    rfl
  have hne : List.replicate 1024 (samplePoint 1) ≠ [] := by
    intro h
    have hl := congrArg List.length h
    rw [List.length_replicate] at hl
    exact absurd hl (by decide)
  have h1 := loop_accepts_to_threshold_not_survivable FLUSH_MAX_POINTS
    (List.replicate 1024 (samplePoint 1)) (NewTimeSeries sampleConfig downClient) rfl hne hlen rfl
  refine ⟨?_, ?_⟩
  · rw [run_of_ticker _ _ _ _ tickerDuration_production, h1]
    rfl
  · rw [run_of_ticker _ _ _ _ tickerDuration_production, List.append_assoc, List.append_assoc,
      loop_append, h1, loop_of_not_running _ _ _ (by simp)]
    rfl

/-- C15, evaluated: at the threshold 2 with one point buffered and a sink that
cannot be reached, the accept of the second point writes the batch of both
points, but the buffer is not left empty: it holds both points. -/
theorem threshold_accept_keeps_buffer_when_sink_is_down :
    (((appendPoint (NewTimeSeries sampleConfig downClient) (samplePoint 1)).ts.pointsBuf.length
        : Nat) : Int) + 1 = 2 ∧
    (step 2 (appendPoint (NewTimeSeries sampleConfig downClient) (samplePoint 1))
      (Event.accept (samplePoint 2))).written
      = [{ Points := [samplePoint 1, samplePoint 2], Database := "metrics"
           RetentionPolicy := "default" }] ∧
    (step 2 (appendPoint (NewTimeSeries sampleConfig downClient) (samplePoint 1))
      (Event.accept (samplePoint 2))).ts.pointsBuf = [samplePoint 1, samplePoint 2] := by
  exact ⟨by decide, rfl, rfl⟩

/-- C16, evaluated: with a sink that cannot be reached, an accept, a tick and a
second accept leave the first point both in the written batch and in the
buffer, and the second point nowhere: the written points followed by the buffer
are not the accepted points. -/
theorem points_repeat_when_sink_is_down :
    writtenPoints (run FLUSH_INTERVAL_MS FLUSH_MAX_POINTS (NewTimeSeries sampleConfig downClient)
        [Event.accept (samplePoint 1), Event.tick, Event.accept (samplePoint 2)]) ++
      (run FLUSH_INTERVAL_MS FLUSH_MAX_POINTS (NewTimeSeries sampleConfig downClient)
        [Event.accept (samplePoint 1), Event.tick, Event.accept (samplePoint 2)]).ts.pointsBuf
      = [samplePoint 1, samplePoint 1] ∧
    acceptedPoints [Event.accept (samplePoint 1), Event.tick, Event.accept (samplePoint 2)]
      = [samplePoint 1, samplePoint 2] ∧
    [samplePoint 1, samplePoint 1] ≠ [samplePoint 1, samplePoint 2] := by
  exact ⟨rfl, rfl, by decide⟩

/-- C17: `transformFields` keeps the values of the metric: a key is bound in the
returned map exactly when it is bound in the argument, and then to the same
integer, boxed as `int64`; the argument map is the same after the loop as
before. -/
theorem transformFields_preserves_values (values : GoMap Int) :
    (∀ k : String, (transformFields values).lookup k = (values.lookup k).map Iface.int64) ∧
    (∀ k : String, k ∈ (transformFields values).keys ↔ k ∈ values.keys) ∧
    (transformFieldsLoop values).values = values := by
  obtain ⟨hv, hf⟩ := transformFields_foldl values.entries values.nodupKeys
    { values := values, fields := ∅ }
  have hlookup : ∀ k : String,
      (transformFields values).lookup k = (values.lookup k).map Iface.int64 := by
    intro k
    have h := hf k
    unfold transformFields transformFieldsLoop
    rw [h]
    unfold AList.lookup
    cases List.dlookup k values.entries with
    | some v => rfl
    | none => rfl
  refine ⟨hlookup, fun k => ?_, hv⟩
  rw [← AList.mem_keys, ← AList.mem_keys, ← AList.lookup_isSome, ← AList.lookup_isSome, hlookup k]
  cases AList.lookup k values <;> simp

end Metricas
